import Mathlib

/-!
Verification model of the egui-gizmo / transform-gizmo interaction core.

Modelling conventions:
* `f64` and `f32` values are modelled over `ℝ`; the `as f32` / `as f64`
  precision casts of the source are modelled as the identity.
* Where IEEE special values (infinities, NaN) are essential to a property,
  the scale-update path is additionally modelled over an extended type `EF`
  that mirrors IEEE `f64` special-value semantics (division by zero,
  `0 * inf = NaN`, Rust's NaN-ignoring `f64::max`, ...) while modelling
  finite arithmetic exactly.
* glam vector/matrix/quaternion types become the `Vec2`/`Vec3`/`Vec4`/
  `Quat`/`DMat4` structures below; `mint::RowMatrix4` (row storage) becomes
  `RowMatrix4`, and the glam conversion transposes rows into columns.
* The crate's `math` module is not among the provided sources; its
  functions are modelled from the specification and marked as such.
-/

noncomputable section

namespace Gizmo

open Real

open scoped Classical

/-- 2D point/vector (`egui::Pos2`, `glam::DVec2`), modelled over the reals. -/
structure Vec2 where
  x : ℝ
  y : ℝ

namespace Vec2

def ZERO : Vec2 := ⟨0, 0⟩

/-- Euclidean distance between two screen points (`egui::Pos2::distance`). -/
def dist (a b : Vec2) : ℝ := Real.sqrt ((a.x - b.x) ^ 2 + (a.y - b.y) ^ 2)

end Vec2

/-- 3D vector (`glam::DVec3`), modelled over the reals. -/
@[ext]
structure Vec3 where
  x : ℝ
  y : ℝ
  z : ℝ

namespace Vec3

instance : Add Vec3 := ⟨fun a b => ⟨a.x + b.x, a.y + b.y, a.z + b.z⟩⟩

instance : Sub Vec3 := ⟨fun a b => ⟨a.x - b.x, a.y - b.y, a.z - b.z⟩⟩

instance : Neg Vec3 := ⟨fun a => ⟨-a.x, -a.y, -a.z⟩⟩

instance : SMul ℝ Vec3 := ⟨fun k v => ⟨k * v.x, k * v.y, k * v.z⟩⟩

/-- Componentwise product, as in glam's `DVec3 * DVec3`. -/
instance : Mul Vec3 := ⟨fun a b => ⟨a.x * b.x, a.y * b.y, a.z * b.z⟩⟩

@[simp] theorem add_x (a b : Vec3) : (a + b).x = a.x + b.x := rfl

@[simp] theorem add_y (a b : Vec3) : (a + b).y = a.y + b.y := rfl

@[simp] theorem add_z (a b : Vec3) : (a + b).z = a.z + b.z := rfl

@[simp] theorem sub_x (a b : Vec3) : (a - b).x = a.x - b.x := rfl

@[simp] theorem sub_y (a b : Vec3) : (a - b).y = a.y - b.y := rfl

@[simp] theorem sub_z (a b : Vec3) : (a - b).z = a.z - b.z := rfl

@[simp] theorem neg_x (a : Vec3) : (-a).x = -a.x := rfl

@[simp] theorem neg_y (a : Vec3) : (-a).y = -a.y := rfl

@[simp] theorem neg_z (a : Vec3) : (-a).z = -a.z := rfl

@[simp] theorem smul_x (k : ℝ) (v : Vec3) : (k • v).x = k * v.x := rfl

@[simp] theorem smul_y (k : ℝ) (v : Vec3) : (k • v).y = k * v.y := rfl

@[simp] theorem smul_z (k : ℝ) (v : Vec3) : (k • v).z = k * v.z := rfl

@[simp] theorem mul_x (a b : Vec3) : (a * b).x = a.x * b.x := rfl

@[simp] theorem mul_y (a b : Vec3) : (a * b).y = a.y * b.y := rfl

@[simp] theorem mul_z (a b : Vec3) : (a * b).z = a.z * b.z := rfl

def ZERO : Vec3 := ⟨0, 0, 0⟩

def ONE : Vec3 := ⟨1, 1, 1⟩

def X : Vec3 := ⟨1, 0, 0⟩

def Y : Vec3 := ⟨0, 1, 0⟩

def Z : Vec3 := ⟨0, 0, 1⟩

def dot (a b : Vec3) : ℝ := a.x * b.x + a.y * b.y + a.z * b.z

def cross (a b : Vec3) : Vec3 :=
  ⟨a.y * b.z - a.z * b.y, a.z * b.x - a.x * b.z, a.x * b.y - a.y * b.x⟩

def length (v : Vec3) : ℝ := Real.sqrt (dot v v)

/-- glam `DVec3::normalize` is `self * self.length().recip()`.  Over the
reals a zero length yields the zero vector (the IEEE NaN of the source in
that degenerate case is modelled in the extended `EF` embedding where it
matters). -/
def normalize (v : Vec3) : Vec3 := (length v)⁻¹ • v

/-- glam `DVec3::normalize_or_zero`. -/
def normalize_or_zero (v : Vec3) : Vec3 :=
  if length v = 0 then ZERO else (length v)⁻¹ • v

@[simp] theorem add_ZERO (v : Vec3) : v + ZERO = v := by
  ext <;> simp [ZERO]

@[simp] theorem ZERO_add (v : Vec3) : ZERO + v = v := by
  ext <;> simp [ZERO]

theorem add_assoc (a b c : Vec3) : a + b + c = a + (b + c) := by
  ext <;> simp <;> ring

end Vec3

/-- Sum of a list of vectors. -/
def sumV : List Vec3 → Vec3
  | [] => Vec3.ZERO
  | v :: rest => v + sumV rest

/-- 4D vector (`glam::DVec4`). -/
@[ext]
structure Vec4 where
  x : ℝ
  y : ℝ
  z : ℝ
  w : ℝ

namespace Vec4

instance : Add Vec4 := ⟨fun a b => ⟨a.x + b.x, a.y + b.y, a.z + b.z, a.w + b.w⟩⟩

instance : SMul ℝ Vec4 := ⟨fun k v => ⟨k * v.x, k * v.y, k * v.z, k * v.w⟩⟩

@[simp] theorem add_x4 (a b : Vec4) : (a + b).x = a.x + b.x := rfl

@[simp] theorem add_y4 (a b : Vec4) : (a + b).y = a.y + b.y := rfl

@[simp] theorem add_z4 (a b : Vec4) : (a + b).z = a.z + b.z := rfl

@[simp] theorem add_w4 (a b : Vec4) : (a + b).w = a.w + b.w := rfl

@[simp] theorem smul_x4 (k : ℝ) (v : Vec4) : (k • v).x = k * v.x := rfl

@[simp] theorem smul_y4 (k : ℝ) (v : Vec4) : (k • v).y = k * v.y := rfl

@[simp] theorem smul_z4 (k : ℝ) (v : Vec4) : (k • v).z = k * v.z := rfl

@[simp] theorem smul_w4 (k : ℝ) (v : Vec4) : (k • v).w = k * v.w := rfl

/-- `DVec4::xyz` (`Vec4Swizzles`). -/
def xyz (v : Vec4) : Vec3 := ⟨v.x, v.y, v.z⟩

end Vec4

/-- Quaternion (`glam::DQuat`). -/
structure Quat where
  x : ℝ
  y : ℝ
  z : ℝ
  w : ℝ

namespace Quat

def IDENTITY : Quat := ⟨0, 0, 0, 1⟩

/-- Hamilton product, glam's `DQuat * DQuat`. -/
def mul (a b : Quat) : Quat :=
  ⟨a.w * b.x + a.x * b.w + a.y * b.z - a.z * b.y,
   a.w * b.y - a.x * b.z + a.y * b.w + a.z * b.x,
   a.w * b.z + a.x * b.y - a.y * b.x + a.z * b.w,
   a.w * b.w - a.x * b.x - a.y * b.y - a.z * b.z⟩

/-- Rotation of a vector by a quaternion, glam's `DQuat * DVec3`
(`v + 2 * cross(q.xyz, cross(q.xyz, v) + q.w * v)`). -/
def rotateVec (q : Quat) (v : Vec3) : Vec3 :=
  let u : Vec3 := ⟨q.x, q.y, q.z⟩
  v + (2 : ℝ) • Vec3.cross u (Vec3.cross u v + q.w • v)

/-- glam `DQuat::from_axis_angle`. -/
def fromAxisAngle (axis : Vec3) (angle : ℝ) : Quat :=
  ⟨Real.sin (angle / 2) * axis.x, Real.sin (angle / 2) * axis.y,
   Real.sin (angle / 2) * axis.z, Real.cos (angle / 2)⟩

end Quat

/-- Row-major 4x4 matrix storage (`mint::RowMatrix4<f64>`); the fields
`x`..`w` are the four rows. -/
structure RowMatrix4 where
  x : Vec4
  y : Vec4
  z : Vec4
  w : Vec4

/-- Column-major 4x4 matrix (`glam::DMat4`); the fields are the columns. -/
structure DMat4 where
  x_axis : Vec4
  y_axis : Vec4
  z_axis : Vec4
  w_axis : Vec4

namespace DMat4

/-- glam's `From<mint::RowMatrix4<f64>> for DMat4`: rows are transposed
into columns, so both sides denote the same mathematical matrix. -/
def ofRowMatrix (m : RowMatrix4) : DMat4 :=
  ⟨⟨m.x.x, m.y.x, m.z.x, m.w.x⟩,
   ⟨m.x.y, m.y.y, m.z.y, m.w.y⟩,
   ⟨m.x.z, m.y.z, m.z.z, m.w.z⟩,
   ⟨m.x.w, m.y.w, m.z.w, m.w.w⟩⟩

def IDENTITY : DMat4 :=
  ⟨⟨1, 0, 0, 0⟩, ⟨0, 1, 0, 0⟩, ⟨0, 0, 1, 0⟩, ⟨0, 0, 0, 1⟩⟩

/-- Matrix-vector product (linear combination of the columns). -/
def mulVec4 (m : DMat4) (v : Vec4) : Vec4 :=
  v.x • m.x_axis + v.y • m.y_axis + v.z • m.z_axis + v.w • m.w_axis

/-- Matrix product `a * b`. -/
def mul (a b : DMat4) : DMat4 :=
  ⟨a.mulVec4 b.x_axis, a.mulVec4 b.y_axis, a.mulVec4 b.z_axis, a.mulVec4 b.w_axis⟩

/-- View as a Mathlib matrix (entry `i j` = row `i`, column `j`). -/
def toMatrix (m : DMat4) : Matrix (Fin 4) (Fin 4) ℝ :=
  Matrix.of
    ![![m.x_axis.x, m.y_axis.x, m.z_axis.x, m.w_axis.x],
      ![m.x_axis.y, m.y_axis.y, m.z_axis.y, m.w_axis.y],
      ![m.x_axis.z, m.y_axis.z, m.z_axis.z, m.w_axis.z],
      ![m.x_axis.w, m.y_axis.w, m.z_axis.w, m.w_axis.w]]

def ofMatrix (a : Matrix (Fin 4) (Fin 4) ℝ) : DMat4 :=
  ⟨⟨a 0 0, a 1 0, a 2 0, a 3 0⟩,
   ⟨a 0 1, a 1 1, a 2 1, a 3 1⟩,
   ⟨a 0 2, a 1 2, a 2 2, a 3 2⟩,
   ⟨a 0 3, a 1 3, a 2 3, a 3 3⟩⟩

/-- glam `DMat4::inverse`, modelled through the Mathlib matrix inverse. -/
def inverse (m : DMat4) : DMat4 := ofMatrix (toMatrix m)⁻¹

/-- First column of the rotation matrix of a unit quaternion. -/
def quatCol0 (q : Quat) : Vec3 :=
  ⟨1 - 2 * (q.y * q.y + q.z * q.z), 2 * (q.x * q.y + q.w * q.z),
   2 * (q.x * q.z - q.w * q.y)⟩

/-- Second column of the rotation matrix of a unit quaternion. -/
def quatCol1 (q : Quat) : Vec3 :=
  ⟨2 * (q.x * q.y - q.w * q.z), 1 - 2 * (q.x * q.x + q.z * q.z),
   2 * (q.y * q.z + q.w * q.x)⟩

/-- Third column of the rotation matrix of a unit quaternion. -/
def quatCol2 (q : Quat) : Vec3 :=
  ⟨2 * (q.x * q.z + q.w * q.y), 2 * (q.y * q.z - q.w * q.x),
   1 - 2 * (q.x * q.x + q.y * q.y)⟩

/-- glam `DMat4::from_scale_rotation_translation`. -/
def fromScaleRotationTranslation (s : Vec3) (r : Quat) (t : Vec3) : DMat4 :=
  let c0 := quatCol0 r
  let c1 := quatCol1 r
  let c2 := quatCol2 r
  ⟨⟨s.x * c0.x, s.x * c0.y, s.x * c0.z, 0⟩,
   ⟨s.y * c1.x, s.y * c1.y, s.y * c1.z, 0⟩,
   ⟨s.z * c2.x, s.z * c2.y, s.z * c2.z, 0⟩,
   ⟨t.x, t.y, t.z, 1⟩⟩

end DMat4

/-- Screen-space rectangle (`emath::Rect`). -/
structure Rect where
  min : Vec2
  max : Vec2

namespace Rect

def width (r : Rect) : ℝ := r.max.x - r.min.x

def height (r : Rect) : ℝ := r.max.y - r.min.y

end Rect

/-! ### Geometry kernel (`crate::math`)

The `math` module of the repository is not among the provided sources; the
following definitions are modelled from the specification. -/

/-- Modelled from the spec: `round_to_interval(value, step) =
round(value/step) * step`, with `step = 0` meaning no snapping (identity).
The crate math module providing this function is missing from the sources. -/
def round_to_interval (value interval : ℝ) : ℝ :=
  if interval = 0 then value else (round (value / interval) : ℝ) * interval

/-- Modelled from the spec: ray-plane intersection given a plane normal and
origin point and a ray origin/direction; returns the ray parameter `t` and
the radial distance from the plane origin to the intersection point.  The
crate math module providing `ray_to_plane_origin` is missing from the
sources. -/
def ray_to_plane_origin (disc_normal disc_origin ray_origin ray_dir : Vec3) :
    ℝ × ℝ :=
  let t := (Vec3.dot disc_normal disc_origin - Vec3.dot disc_normal ray_origin) /
    Vec3.dot disc_normal ray_dir
  let p := ray_origin + t • ray_dir
  (t, Vec3.length (p - disc_origin))

/-- Clamp a parameter into `[0, 1]`. -/
def clamp01 (v : ℝ) : ℝ := max 0 (min v 1)

/-- Modelled from the spec: closest points between the segments `a1a2` and
`b1b2`, as the clamped parameters `(s, t)` of the standard algebraic
solution, with the near-parallel and degenerate cases guarded.  The crate
math module providing `segment_to_segment` is missing from the sources. -/
def segment_to_segment (a1 a2 b1 b2 : Vec3) : ℝ × ℝ :=
  let d1 := a2 - a1
  let d2 := b2 - b1
  let r := b1 - a1
  let a := Vec3.dot d1 d1
  let e := Vec3.dot d2 d2
  let f := Vec3.dot d2 r
  let c := Vec3.dot d1 r
  if a = 0 ∧ e = 0 then (0, 0)
  else if a = 0 then (0, clamp01 (f / e))
  else if e = 0 then (clamp01 (c / a), 0)
  else
    let b := Vec3.dot d1 d2
    let denom := a * e - b * b
    let s := if denom = 0 then 0 else clamp01 ((b * f - c * e) / denom)
    let t := (b * s + f) / e
    if t < 0 then (clamp01 (c / a), 0)
    else if t > 1 then (clamp01 ((b + c) / a), 1)
    else (s, t)

/-- Modelled from the spec: transform a world point through a matrix and
viewport to screen pixel coordinates, reporting failure (rather than a
garbage point) when the point is behind the camera.  The crate math module
providing `world_to_screen` is missing from the sources. -/
def world_to_screen (viewport : Rect) (m : DMat4) (pos : Vec3) : Option Vec2 :=
  let c := m.mulVec4 ⟨pos.x, pos.y, pos.z, 1⟩
  if c.w ≤ 0 then none
  else some ⟨viewport.min.x + (c.x / c.w + 1) / 2 * viewport.width,
             viewport.min.y + (1 - (c.y / c.w + 1) / 2) * viewport.height⟩

/-- Modelled from the spec: map a screen pixel plus depth back to a world
point through the given inverse matrix.  The crate math module providing
`screen_to_world` is missing from the sources. -/
def screen_to_world (viewport : Rect) (mat_inv : DMat4) (pos : Vec2) (z : ℝ) :
    Vec3 :=
  let ndc : Vec4 :=
    ⟨(pos.x - viewport.min.x) / Rect.width viewport * 2 - 1,
     -((pos.y - viewport.min.y) / Rect.height viewport * 2 - 1), z, 1⟩
  let world := mat_inv.mulVec4 ndc
  if world.w = 0 then Vec3.ZERO else (world.w)⁻¹ • Vec4.xyz world

/-- `f64::atan2`, modelled by the argument of the complex number `x + y*I`
(range `(-pi, pi]`). -/
def atan2 (y x : ℝ) : ℝ := Complex.arg ⟨x, y⟩

/-! ### Configuration (`crates/transform-gizmo/src/config.rs`) -/

inductive GizmoMode where
  | Rotate
  | Translate
  | Scale
  deriving DecidableEq

/-- `EnumSet<GizmoMode>`, modelled as one membership flag per mode. -/
structure GizmoModes where
  rotate : Bool
  translate : Bool
  scale : Bool

inductive GizmoOrientation where
  | Global
  | Local
  deriving DecidableEq

/-- Direction of a handle.  The older crate names the fourth variant
`Screen`; it is the same view-aligned direction. -/
inductive GizmoDirection where
  | X
  | Y
  | Z
  | View
  deriving DecidableEq

/-- Visual settings of the gizmo.  The color and alpha fields of the source
(`Color32` values, only consumed by the excluded rasterizer paths) are
omitted; the geometric fields are kept. -/
structure GizmoVisuals where
  stroke_width : ℝ
  gizmo_size : ℝ

structure GizmoConfig where
  view_matrix : RowMatrix4
  projection_matrix : RowMatrix4
  viewport : Rect
  modes : GizmoModes
  orientation : GizmoOrientation
  snapping : Bool
  snap_angle : ℝ
  snap_distance : ℝ
  snap_scale : ℝ
  visuals : GizmoVisuals
  pixels_per_point : ℝ

namespace GizmoConfig

/-- Forward vector of the view camera: `DVec4::from(self.view_matrix.z).xyz()`
(third row of the row-major view matrix). -/
def view_forward (c : GizmoConfig) : Vec3 := Vec4.xyz c.view_matrix.z

/-- Up vector of the view camera (second row). -/
def view_up (c : GizmoConfig) : Vec3 := Vec4.xyz c.view_matrix.y

/-- Right vector of the view camera (first row). -/
def view_right (c : GizmoConfig) : Vec3 := Vec4.xyz c.view_matrix.x

/-- Whether local orientation is used: local orientation, or the Scale mode
active (scale only works in local space). -/
def local_space (c : GizmoConfig) : Bool :=
  decide (c.orientation = GizmoOrientation.Local) || c.modes.scale

end GizmoConfig

structure PreparedGizmoConfig where
  config : GizmoConfig
  /-- Rotation of the gizmo. -/
  rotation : Quat
  /-- Translation of the gizmo. -/
  translation : Vec3
  /-- Scale of the gizmo. -/
  scale : Vec3
  /-- Combined view-projection matrix. -/
  view_projection : DMat4
  /-- Combined model-view-projection matrix. -/
  mvp : DMat4
  /-- Scale factor for the gizmo rendering (an `f32` in the source). -/
  scale_factor : ℝ
  /-- Hit-test tolerance distance (an `f32` in the source). -/
  focus_distance : ℝ
  /-- Whether a left-handed projection is used. -/
  left_handed : Prop
  /-- Direction from the camera to the gizmo in world space. -/
  eye_to_model_dir : Vec3

namespace PreparedGizmoConfig

def view_forward (c : PreparedGizmoConfig) : Vec3 := c.config.view_forward

def view_up (c : PreparedGizmoConfig) : Vec3 := c.config.view_up

def view_right (c : PreparedGizmoConfig) : Vec3 := c.config.view_right

def local_space (c : PreparedGizmoConfig) : Bool := c.config.local_space

/-- `PreparedGizmoConfig::from_config` (config.rs lines 131-162). -/
def from_config (config : GizmoConfig) : PreparedGizmoConfig :=
  let projection_matrix := DMat4.ofRowMatrix config.projection_matrix
  let view_matrix := DMat4.ofRowMatrix config.view_matrix
  let view_projection := projection_matrix.mul view_matrix
  let scale_factor := view_projection.w_axis.w / projection_matrix.x_axis.x /
    Rect.width config.viewport * 2
  let focus_distance := scale_factor * (config.visuals.stroke_width / 2 + 5)
  let left_handed :=
    if projection_matrix.z_axis.w = 0 then projection_matrix.z_axis.z > 0
    else projection_matrix.z_axis.w > 0
  { config := config
    rotation := Quat.IDENTITY
    translation := Vec3.ZERO
    scale := Vec3.ONE
    view_projection := view_projection
    mvp := view_projection
    eye_to_model_dir := Vec3.ZERO
    scale_factor := scale_factor
    focus_distance := focus_distance
    left_handed := left_handed }

/-- One target transform, represented by its decomposition.  The source
iterates over `&[DMat4]` targets and calls glam's
`to_scale_rotation_translation` on each; that external decomposition is
modelled as the identity on targets already given in `(scale, rotation,
translation)` form. -/
structure TargetSRT where
  scale : Vec3
  rotation : Quat
  translation : Vec3

/-- Accumulator of the target loop of `update_for_targets`. -/
structure TargetAcc where
  scale : Vec3
  translation : Vec3
  rotation : Quat
  target_count : ℕ

/-- One iteration of the target loop of `update_for_targets` (config.rs
lines 170-179): sum scale and translation, keep the latest rotation, count
the target. -/
def target_step (acc : TargetAcc) (t : TargetSRT) : TargetAcc :=
  ⟨acc.scale + t.scale, acc.translation + t.translation, t.rotation,
   acc.target_count + 1⟩

/-- `PreparedGizmoConfig::update_for_targets` (config.rs lines 164-206). -/
def update_for_targets (c : PreparedGizmoConfig) (targets : List TargetSRT) :
    PreparedGizmoConfig :=
  let acc := targets.foldl target_step ⟨Vec3.ZERO, Vec3.ZERO, Quat.IDENTITY, 0⟩
  let scale := if acc.target_count = 0 then Vec3.ONE
    else (acc.target_count : ℝ)⁻¹ • acc.scale
  let translation := if acc.target_count = 0 then acc.translation
    else (acc.target_count : ℝ)⁻¹ • acc.translation
  let rotation := acc.rotation
  let model_matrix := DMat4.fromScaleRotationTranslation scale rotation translation
  let mvp := c.view_projection.mul model_matrix
  let gizmo_screen_pos :=
    (world_to_screen c.config.viewport mvp translation).getD Vec2.ZERO
  let gizmo_view_near := screen_to_world c.config.viewport
    c.view_projection.inverse gizmo_screen_pos (-1)
  { c with
    rotation := rotation
    translation := translation
    scale := scale
    mvp := mvp
    eye_to_model_dir := Vec3.normalize_or_zero (gizmo_view_near - translation) }

end PreparedGizmoConfig

export PreparedGizmoConfig (from_config update_for_targets TargetSRT TargetAcc target_step)

/-! ### Picking primitives (`crates/transform-gizmo/src/subgizmo/common.rs`) -/

/-- Pointer ray in world space (`gizmo::Ray`). -/
structure Ray where
  origin : Vec3
  direction : Vec3

inductive TransformKind where
  | Axis
  | Plane
  deriving DecidableEq

structure PickResult where
  subgizmo_point : Vec3
  visibility : ℝ
  picked : Prop
  t : ℝ

/-- `ARROW_FADE` band start (common.rs line 9). -/
def ARROW_FADE_start : ℝ := 0.95

/-- `ARROW_FADE` band end (common.rs line 9). -/
def ARROW_FADE_end : ℝ := 0.99

/-- `PLANE_FADE` band start (common.rs line 10). -/
def PLANE_FADE_start : ℝ := 0.70

/-- `PLANE_FADE` band end (common.rs line 10). -/
def PLANE_FADE_end : ℝ := 0.86

/-- `plane_bitangent` (common.rs lines 289-296); the older crate names this
`plane_binormal`. -/
def plane_bitangent (direction : GizmoDirection) : Vec3 :=
  match direction with
  | GizmoDirection.X => Vec3.Y
  | GizmoDirection.Y => Vec3.Z
  | GizmoDirection.Z => Vec3.X
  | GizmoDirection.View => Vec3.ZERO

/-- `plane_tangent` (common.rs lines 298-305). -/
def plane_tangent (direction : GizmoDirection) : Vec3 :=
  match direction with
  | GizmoDirection.X => Vec3.Z
  | GizmoDirection.Y => Vec3.X
  | GizmoDirection.Z => Vec3.Y
  | GizmoDirection.View => Vec3.ZERO

/-- `plane_size` (common.rs lines 307-310). -/
def plane_size (config : PreparedGizmoConfig) : ℝ :=
  config.scale_factor *
    (config.config.visuals.gizmo_size * 0.1 + config.config.visuals.stroke_width * 2.0)

/-- `plane_local_origin` (common.rs lines 312-318). -/
def plane_local_origin (config : PreparedGizmoConfig) (direction : GizmoDirection) :
    Vec3 :=
  let offset := config.scale_factor * config.config.visuals.gizmo_size * 0.5
  let a := plane_bitangent direction
  let b := plane_tangent direction
  offset • (a + b)

/-- `plane_global_origin` (common.rs lines 320-329). -/
def plane_global_origin (config : PreparedGizmoConfig) (direction : GizmoDirection) :
    Vec3 :=
  let origin := plane_local_origin config direction
  let origin := if config.local_space then Quat.rotateVec config.rotation origin
    else origin
  origin + config.translation

/-- `inner_circle_radius` (common.rs lines 331-334). -/
def inner_circle_radius (config : PreparedGizmoConfig) : ℝ :=
  config.scale_factor * config.config.visuals.gizmo_size * 0.2

/-- `outer_circle_radius` (common.rs lines 336-339). -/
def outer_circle_radius (config : PreparedGizmoConfig) : ℝ :=
  config.scale_factor *
    (config.config.visuals.gizmo_size + config.config.visuals.stroke_width + 5.0)

/-- `gizmo_local_normal` (common.rs lines 341-348). -/
def gizmo_local_normal (config : PreparedGizmoConfig) (direction : GizmoDirection) :
    Vec3 :=
  match direction with
  | GizmoDirection.X => Vec3.X
  | GizmoDirection.Y => Vec3.Y
  | GizmoDirection.Z => Vec3.Z
  | GizmoDirection.View => -config.view_forward

/-- `gizmo_normal` (common.rs lines 350-358). -/
def gizmo_normal (config : PreparedGizmoConfig) (direction : GizmoDirection) :
    Vec3 :=
  let normal := gizmo_local_normal config direction
  if config.local_space = true ∧ direction ≠ GizmoDirection.View then
    Quat.rotateVec config.rotation normal
  else normal

/-- `pick_arrow` (common.rs lines 32-70). -/
def pick_arrow (config : PreparedGizmoConfig) (ray : Ray)
    (direction : GizmoDirection) : PickResult :=
  let width := config.scale_factor * config.config.visuals.stroke_width
  let dir := gizmo_normal config direction
  let start := config.translation + (width * 0.5 + inner_circle_radius config) • dir
  let length := config.scale_factor * config.config.visuals.gizmo_size
  let ray_length : ℝ := 1e14
  let st := segment_to_segment ray.origin (ray.origin + ray_length • ray.direction)
    start (start + length • dir)
  let ray_t := st.1
  let subgizmo_t := st.2
  let ray_point := ray.origin + (ray_length * ray_t) • ray.direction
  let subgizmo_point := start + (length * subgizmo_t) • dir
  let dist := Vec3.length (ray_point - subgizmo_point)
  let dot := |Vec3.dot config.eye_to_model_dir dir|
  let visibility :=
    min (1 - (dot - ARROW_FADE_start) / (ARROW_FADE_end - ARROW_FADE_start)) 1
  { subgizmo_point := subgizmo_point
    visibility := visibility
    picked := visibility > 0 ∧ dist ≤ config.focus_distance
    t := ray_t }

/-- `pick_plane` (common.rs lines 72-101). -/
def pick_plane (config : PreparedGizmoConfig) (ray : Ray)
    (direction : GizmoDirection) : PickResult :=
  let origin := plane_global_origin config direction
  let normal := gizmo_normal config direction
  let td := ray_to_plane_origin normal origin ray.origin ray.direction
  let t := td.1
  let dist_from_origin := td.2
  let ray_point := ray.origin + t • ray.direction
  let dot := |Vec3.dot config.eye_to_model_dir (gizmo_normal config direction)|
  let visibility :=
    min (1 - ((1 - dot) - PLANE_FADE_start) / (PLANE_FADE_end - PLANE_FADE_start)) 1
  { subgizmo_point := ray_point
    visibility := visibility
    picked := visibility > 0 ∧ dist_from_origin ≤ plane_size config
    t := t }

/-- `pick_circle` (common.rs lines 103-129). -/
def pick_circle (config : PreparedGizmoConfig) (ray : Ray) (radius : ℝ)
    (filled : Bool) : PickResult :=
  let origin := config.translation
  let normal := -config.view_forward
  let td := ray_to_plane_origin normal origin ray.origin ray.direction
  let t := td.1
  let dist_from_gizmo_origin := td.2
  let hit_pos := ray.origin + t • ray.direction
  { subgizmo_point := hit_pos
    visibility := 1.0
    picked :=
      if filled then dist_from_gizmo_origin ≤ radius + config.focus_distance
      else |dist_from_gizmo_origin - radius| ≤ config.focus_distance
    t := t }

/-- The four corners of the plane-patch quadrilateral emitted by
`draw_plane` (common.rs lines 227-246), in gizmo-local space; `draw_plane`
passes exactly this list to the polygon shape builder. -/
def draw_plane_points (config : PreparedGizmoConfig) (direction : GizmoDirection) :
    Vec3 × Vec3 × Vec3 × Vec3 :=
  let scale := plane_size config * 0.5
  let a := scale • plane_bitangent direction
  let b := scale • plane_tangent direction
  let origin := plane_local_origin config direction
  (origin - b - a, origin + b - a, origin + b + a, origin - b + a)

/-! ### Extended floats

`EF` models an IEEE `f64` value as either an exact finite real, a signed
infinity, or NaN.  Finite arithmetic is modelled exactly; the special-value
rules below follow IEEE 754 and, for `max`, Rust's NaN-ignoring
`f64::max`. -/

inductive EF where
  | fin (v : ℝ)
  | pinf
  | ninf
  | nan
  deriving Inhabited

namespace EF

def neg : EF → EF
  | fin v => fin (-v)
  | pinf => ninf
  | ninf => pinf
  | nan => nan

def add : EF → EF → EF
  | nan, _ => nan
  | _, nan => nan
  | fin a, fin b => fin (a + b)
  | fin _, pinf => pinf
  | fin _, ninf => ninf
  | pinf, fin _ => pinf
  | ninf, fin _ => ninf
  | pinf, pinf => pinf
  | ninf, ninf => ninf
  | pinf, ninf => nan
  | ninf, pinf => nan

def sub (a b : EF) : EF := add a (neg b)

def mul : EF → EF → EF
  | nan, _ => nan
  | _, nan => nan
  | fin a, fin b => fin (a * b)
  | fin a, pinf => if 0 < a then pinf else if a < 0 then ninf else nan
  | fin a, ninf => if 0 < a then ninf else if a < 0 then pinf else nan
  | pinf, fin b => if 0 < b then pinf else if b < 0 then ninf else nan
  | ninf, fin b => if 0 < b then ninf else if b < 0 then pinf else nan
  | pinf, pinf => pinf
  | pinf, ninf => ninf
  | ninf, pinf => ninf
  | ninf, ninf => pinf

def div : EF → EF → EF
  | nan, _ => nan
  | _, nan => nan
  | fin a, fin b =>
    if b = 0 then (if 0 < a then pinf else if a < 0 then ninf else nan)
    else fin (a / b)
  | fin _, pinf => fin 0
  | fin _, ninf => fin 0
  | pinf, fin b => if 0 ≤ b then pinf else ninf
  | ninf, fin b => if 0 ≤ b then ninf else pinf
  | pinf, pinf => nan
  | pinf, ninf => nan
  | ninf, pinf => nan
  | ninf, ninf => nan

/-- Rust `f64::max`: a NaN argument is ignored in favour of the other. -/
def maxEF : EF → EF → EF
  | nan, b => b
  | a, nan => a
  | fin a, fin b => fin (max a b)
  | pinf, _ => pinf
  | fin _, pinf => pinf
  | ninf, b => b
  | fin a, ninf => fin a

def sqrt : EF → EF
  | fin v => if v < 0 then nan else fin (Real.sqrt v)
  | pinf => pinf
  | ninf => nan
  | nan => nan

/-- `round_to_interval` lifted to extended floats; on non-finite inputs the
value passes through (never exercised by the claims, which snap only finite
ratios). -/
def roundToInterval (v : EF) (interval : ℝ) : EF :=
  match v with
  | fin x => fin (round_to_interval x interval)
  | x => x

/-- A value that is finite and strictly positive. -/
def pos : EF → Prop
  | fin v => 0 < v
  | _ => False

end EF

/-- 3-vector of extended floats, for the scale-update path. -/
structure EFVec3 where
  x : EF
  y : EF
  z : EF

namespace EFVec3

def finVec (v : Vec3) : EFVec3 := ⟨EF.fin v.x, EF.fin v.y, EF.fin v.z⟩

def ONE : EFVec3 := finVec Vec3.ONE

def add (a b : EFVec3) : EFVec3 :=
  ⟨EF.add a.x b.x, EF.add a.y b.y, EF.add a.z b.z⟩

/-- Componentwise product (`DVec3 * DVec3`). -/
def mulV (a b : EFVec3) : EFVec3 :=
  ⟨EF.mul a.x b.x, EF.mul a.y b.y, EF.mul a.z b.z⟩

/-- `DVec3 * f64`. -/
def smulE (v : EFVec3) (d : EF) : EFVec3 :=
  ⟨EF.mul v.x d, EF.mul v.y d, EF.mul v.z d⟩

end EFVec3

/-! ### Subgizmo state machines (`src/subgizmo/scale.rs`, `src/subgizmo/rotation.rs`)

These files come from the older crate generation; their `SubGizmoConfig`
framework, `common` module and `math` module are not among the provided
sources.  The framework is modelled as an explicit record plus explicit
state passing (per the spec's handle-state description), the shared picking
primitives are the ones embedded above from the newer `common.rs` (the spec
describes both identically), and `ui`-dependent pointer input is modelled
as an optional cursor position. -/

/-- The per-handle data of `SubGizmoConfig<T>` that the scale and rotation
subgizmos read (the drag state `T` is passed separately, as it lives in the
host UI's memory). -/
structure SubGizmoConfig where
  config : PreparedGizmoConfig
  direction : GizmoDirection
  transform_kind : TransformKind
  opacity : ℝ
  active : Bool
  focused : Bool

/-- `GizmoResult`: output of a successful update.  The scale and value
vectors are extended floats so that special-value propagation on the scale
path is visible; rotation and translation are carried unchanged from the
working configuration by the embedded updates. -/
structure GizmoResult where
  scale : EFVec3
  rotation : Quat
  translation : Vec3
  mode : GizmoMode
  value : EFVec3

/-- `ScaleState` (scale.rs lines 75-79); `start_scale` is kept in extended
form as it is multiplied into the extended scale path. -/
structure ScaleState where
  start_scale : EFVec3
  start_delta : EF

/-- `distance_from_origin_2d` (scale.rs lines 83-89): screen distance from
the gizmo's projected origin to the pointer, `none` when the pointer
position or the screen projection is unavailable. -/
def distance_from_origin_2d (subgizmo : SubGizmoConfig)
    (cursor_pos : Option Vec2) : Option ℝ :=
  match cursor_pos with
  | none => none
  | some c =>
    match world_to_screen subgizmo.config.config.viewport subgizmo.config.mvp
      Vec3.ZERO with
    | none => none
    | some gizmo_pos => some (Vec2.dist c gizmo_pos)

/-- The pick-primitive dispatch at the head of `ScaleSubGizmo::pick`
(scale.rs lines 16-19). -/
def scale_pick_result (subgizmo : SubGizmoConfig) (ray : Ray) : PickResult :=
  match subgizmo.transform_kind with
  | TransformKind.Axis => pick_arrow subgizmo.config ray subgizmo.direction
  | TransformKind.Plane => pick_plane subgizmo.config ray subgizmo.direction

/-- `ScaleSubGizmo::pick` (scale.rs lines 15-35).  Returns the new opacity,
the new persistent state and the optional ray parameter; when the screen
distance is unavailable the `?` operator returns early and nothing is
written. -/
def scale_pick (subgizmo : SubGizmoConfig) (state : ScaleState)
    (cursor_pos : Option Vec2) (ray : Ray) : ℝ × ScaleState × Option ℝ :=
  let pick_result := scale_pick_result subgizmo ray
  match distance_from_origin_2d subgizmo cursor_pos with
  | none => (subgizmo.opacity, state, none)
  | some start_delta =>
    (pick_result.visibility,
     ⟨EFVec3.finVec subgizmo.config.scale, EF.fin start_delta⟩,
     if pick_result.picked then some pick_result.t else none)

/-- `ScaleSubGizmo::update` (scale.rs lines 37-65). -/
def scale_update (subgizmo : SubGizmoConfig) (state : ScaleState)
    (cursor_pos : Option Vec2) : Option GizmoResult :=
  match distance_from_origin_2d subgizmo cursor_pos with
  | none => none
  | some dist =>
    let delta := EF.div (EF.fin dist) state.start_delta
    let delta := if subgizmo.config.config.snapping then
      EF.roundToInterval delta subgizmo.config.config.snap_scale else delta
    let delta := EF.sub (EF.maxEF delta (EF.fin 1e-4)) (EF.fin 1)
    let direction :=
      if subgizmo.transform_kind = TransformKind.Plane then
        Vec3.normalize (plane_bitangent subgizmo.direction +
          plane_tangent subgizmo.direction)
      else gizmo_local_normal subgizmo.config subgizmo.direction
    let offset := EFVec3.add EFVec3.ONE (EFVec3.smulE (EFVec3.finVec direction) delta)
    let new_scale := EFVec3.mulV state.start_scale offset
    some
      { scale := new_scale
        rotation := subgizmo.config.rotation
        translation := subgizmo.config.translation
        mode := GizmoMode.Scale
        value := offset }

/-- `RotationState` (rotation.rs lines 248-254); the `f32` fields are
modelled over the reals. -/
structure RotationState where
  start_axis_angle : ℝ
  start_rotation_angle : ℝ
  last_rotation_angle : ℝ
  current_delta : ℝ

/-- `tangent` (rotation.rs lines 223-235); `GizmoDirection.View` is the
older crate's `Screen` variant. -/
def rotation_tangent (subgizmo : SubGizmoConfig) : Vec3 :=
  let tangent :=
    match subgizmo.direction with
    | GizmoDirection.X => Vec3.Z
    | GizmoDirection.Y => Vec3.Z
    | GizmoDirection.Z => -Vec3.Y
    | GizmoDirection.View => -subgizmo.config.view_right
  if subgizmo.config.local_space = true ∧ subgizmo.direction ≠ GizmoDirection.View
  then Quat.rotateVec subgizmo.config.rotation tangent
  else tangent

/-- `arc_radius` (rotation.rs lines 237-246). -/
def arc_radius (subgizmo : SubGizmoConfig) : ℝ :=
  let radius := subgizmo.config.config.visuals.gizmo_size
  let radius := if subgizmo.direction = GizmoDirection.View then
    radius + subgizmo.config.config.visuals.stroke_width + 5
  else radius
  subgizmo.config.scale_factor * radius

/-- `arc_angle` (rotation.rs lines 152-163): the angular half-extent of the
rendered/pickable arc, a semicircle that widens to a full circle when the
rotation axis is viewed nearly head-on. -/
def arc_angle (subgizmo : SubGizmoConfig) : ℝ :=
  let dot := |Vec3.dot (gizmo_normal subgizmo.config subgizmo.direction)
    subgizmo.config.view_forward|
  let min_dot : ℝ := 0.990
  let max_dot : ℝ := 0.995
  let angle := min 1 (max 0 (dot - min_dot) / (max_dot - min_dot)) * (π / 2) + π / 2
  if |angle - π| < 1e-2 then π else angle

/-- `rotation_angle` (rotation.rs lines 201-221): the 2D screen angle of
the pointer about the gizmo's projected origin; the NaN test on the
normalized pointer delta is the zero-delta test. -/
def rotation_angle (subgizmo : SubGizmoConfig) (cursor_pos : Option Vec2) :
    Option ℝ :=
  match cursor_pos with
  | none => none
  | some c =>
    match world_to_screen subgizmo.config.config.viewport subgizmo.config.mvp
      Vec3.ZERO with
    | none => none
    | some gizmo_pos =>
      let dx := c.x - gizmo_pos.x
      let dy := c.y - gizmo_pos.y
      if dx = 0 ∧ dy = 0 then none
      else
        let len := Real.sqrt (dx ^ 2 + dy ^ 2)
        let angle := atan2 (dy / len) (dx / len)
        let angle := if Vec3.dot subgizmo.config.view_forward
          (gizmo_normal subgizmo.config subgizmo.direction) < 0 then -angle
        else angle
        some angle

/-- The ray parameter and ring distance computed at the head of
`RotationSubGizmo::pick` (rotation.rs lines 21-23). -/
def rotation_pick_t_dist (subgizmo : SubGizmoConfig) (ray : Ray) : ℝ × ℝ :=
  ray_to_plane_origin (gizmo_normal subgizmo.config subgizmo.direction)
    subgizmo.config.translation ray.origin ray.direction

/-- The initial axis angle of the pointer computed by
`RotationSubGizmo::pick` (rotation.rs lines 25-39). -/
def rotation_pick_angle (subgizmo : SubGizmoConfig) (ray : Ray) : ℝ :=
  let config := subgizmo.config
  let origin := config.translation
  let normal := gizmo_normal config subgizmo.direction
  let tangent := rotation_tangent subgizmo
  let td := rotation_pick_t_dist subgizmo ray
  let t := td.1
  let dist_from_gizmo_origin := td.2
  let radius := arc_radius subgizmo
  let hit_pos := ray.origin + t • ray.direction
  let dir_to_origin := Vec3.normalize (origin - hit_pos)
  let nearest_circle_pos := hit_pos + (dist_from_gizmo_origin - radius) • dir_to_origin
  let offset := Vec3.normalize (nearest_circle_pos - origin)
  if subgizmo.direction = GizmoDirection.View then
    atan2 (Vec3.dot (Vec3.cross tangent normal) offset) (Vec3.dot tangent offset)
  else
    let forward := config.view_forward
    let forward := if config.left_handed then (-1 : ℝ) • forward else forward
    atan2 (Vec3.dot (Vec3.cross offset forward) normal) (Vec3.dot offset forward)

/-- `RotationSubGizmo::pick` (rotation.rs lines 14-54).  Returns the new
persistent state (always written) and the optional ray parameter, which is
`some` exactly when both the ring-distance test and the strict arc-angle
test pass. -/
def rotation_pick (subgizmo : SubGizmoConfig) (state : RotationState)
    (cursor_pos : Option Vec2) (ray : Ray) : RotationState × Option ℝ :=
  let config := subgizmo.config
  let td := rotation_pick_t_dist subgizmo ray
  let t := td.1
  let dist_from_gizmo_origin := td.2
  let radius := arc_radius subgizmo
  let dist_from_gizmo_edge := |dist_from_gizmo_origin - radius|
  let angle := rotation_pick_angle subgizmo ray
  let ra := (rotation_angle subgizmo cursor_pos).getD 0
  let state' : RotationState :=
    { state with
      start_axis_angle := angle
      start_rotation_angle := ra
      last_rotation_angle := ra
      current_delta := 0 }
  (state',
   if dist_from_gizmo_edge ≤ config.focus_distance ∧ |angle| < arc_angle subgizmo
   then some t else none)

/-- The per-frame incremental-angle wrap of `RotationSubGizmo::update`
(rotation.rs lines 68-75): one full turn is subtracted or added when the
naive difference exceeds pi in magnitude. -/
def angle_delta_wrap (rotation_angle last_rotation_angle : ℝ) : ℝ :=
  let angle_delta := rotation_angle - last_rotation_angle
  if angle_delta > π then angle_delta - 2 * π
  else if angle_delta < -π then angle_delta + 2 * π
  else angle_delta

/-- `RotationSubGizmo::update` (rotation.rs lines 56-92).  Returns the
result and the new persistent state; `value` reads the pre-update state
copy, as the source does. -/
def rotation_update (subgizmo : SubGizmoConfig) (state : RotationState)
    (cursor_pos : Option Vec2) : Option (GizmoResult × RotationState) :=
  match rotation_angle subgizmo cursor_pos with
  | none => none
  | some ra =>
    let config := subgizmo.config
    let rotation_angle := if config.config.snapping then
      round_to_interval (ra - state.start_rotation_angle) config.config.snap_angle +
        state.start_rotation_angle
    else ra
    let angle_delta := angle_delta_wrap rotation_angle state.last_rotation_angle
    let state' : RotationState :=
      { state with
        last_rotation_angle := rotation_angle
        current_delta := state.current_delta + angle_delta }
    let normal := gizmo_normal config subgizmo.direction
    let new_rotation :=
      Quat.mul (Quat.fromAxisAngle normal (-angle_delta)) config.rotation
    some
      ({ scale := EFVec3.finVec config.scale
         rotation := new_rotation
         translation := config.translation
         mode := GizmoMode.Rotate
         value := EFVec3.finVec (state.current_delta • normal) },
       state')

/-! ### Concrete sample values

A small identity-camera setup used by the concrete theorems below: identity
view and projection matrices, viewport `[0,0]x[2,2]` (so the derived scale
factor is 1), translate-only global mode, no snapping, stroke width 0 and
gizmo size 10. -/

/-- Identity row-major matrix. -/
def rowIdentity : RowMatrix4 :=
  ⟨⟨1, 0, 0, 0⟩, ⟨0, 1, 0, 0⟩, ⟨0, 0, 1, 0⟩, ⟨0, 0, 0, 1⟩⟩

def sampleConfig : GizmoConfig :=
  { view_matrix := rowIdentity
    projection_matrix := rowIdentity
    viewport := ⟨⟨0, 0⟩, ⟨2, 2⟩⟩
    modes := ⟨false, true, false⟩
    orientation := GizmoOrientation.Global
    snapping := false
    snap_angle := 0.1
    snap_distance := 0.1
    snap_scale := 0.1
    visuals := ⟨0, 10⟩
    pixels_per_point := 1 }

/-- A prepared configuration for `sampleConfig` with the camera looking
down the Z axis from in front of the gizmo. -/
def sampleEyeZ : PreparedGizmoConfig :=
  { config := sampleConfig
    rotation := Quat.IDENTITY
    translation := Vec3.ZERO
    scale := Vec3.ONE
    view_projection := DMat4.IDENTITY
    mvp := DMat4.IDENTITY
    scale_factor := 1
    focus_distance := 1
    left_handed := False
    eye_to_model_dir := Vec3.Z }

/-- The same prepared configuration with the camera-to-gizmo direction
along the X axis (the camera looking straight down the X handle). -/
def sampleEyeX : PreparedGizmoConfig :=
  { sampleEyeZ with eye_to_model_dir := Vec3.X }

/-- X-axis scale subgizmo over the sample configuration. -/
def sampleAxisX : SubGizmoConfig :=
  ⟨sampleEyeZ, GizmoDirection.X, TransformKind.Axis, 0.5, false, false⟩

/-- A right-handed orthographic-style projection matrix
(`diag(1, 1, -1, 1)`): entry (2,2) is negative, entry (3,2) is zero and
entry (3,3) is one (0-based row, column). -/
def projOrthoRH : RowMatrix4 :=
  ⟨⟨1, 0, 0, 0⟩, ⟨0, 1, 0, 0⟩, ⟨0, 0, -1, 0⟩, ⟨0, 0, 0, 1⟩⟩

def sampleConfigOrthoRH : GizmoConfig :=
  { sampleConfig with projection_matrix := projOrthoRH }

/-- The left-handedness derivation exactly as the claim words it, in the
spec's 0-based (row, column) indexing (the indexing the spec itself fixes
through its `view_projection[3][3] / projection[0][0]` scale-factor
formula): inspect entry (3,3); if it is zero, the sign of entry (3,2)
decides; otherwise the sign of entry (3,3) does. -/
def left_handed_claimed (m : RowMatrix4) : Prop :=
  if m.w.w = 0 then 0 < m.w.z else 0 < m.w.w

/-! ### Claim theorems -/

/-- C8: for every prepared configuration, pointer ray, radius and fill
mode, `pick_circle` returns a visibility factor equal to exactly 1: circle
handles never fade with the view angle. -/
theorem pick_circle_visibility_one (config : PreparedGizmoConfig) (ray : Ray)
    (radius : ℝ) (filled : Bool) :
    (pick_circle config ray radius filled).visibility = 1 := by
  simp only [pick_circle]
  norm_num

/-- C1 (counterexample): the visibility factor returned by a picking
primitive does not always lie in `[0, 1]`: with the camera-to-gizmo
direction parallel to the X axis, `pick_arrow` on the X handle returns a
strictly negative visibility. -/
theorem pick_arrow_visibility_can_be_negative :
    (pick_arrow sampleEyeX ⟨Vec3.ZERO, Vec3.Z⟩ GizmoDirection.X).visibility < 0 := by
  have hdot : Vec3.dot sampleEyeX.eye_to_model_dir
      (gizmo_normal sampleEyeX GizmoDirection.X) = 1 := by
    simp [sampleEyeX, sampleEyeZ, sampleConfig, gizmo_normal, gizmo_local_normal,
      PreparedGizmoConfig.local_space, GizmoConfig.local_space, Vec3.dot, Vec3.X]
  have h : (pick_arrow sampleEyeX ⟨Vec3.ZERO, Vec3.Z⟩ GizmoDirection.X).visibility =
      min (1 - (|(1 : ℝ)| - ARROW_FADE_start) / (ARROW_FADE_end - ARROW_FADE_start)) 1 := by
    simp only [pick_arrow, hdot]
  rw [h]
  have : (1 - (|(1 : ℝ)| - ARROW_FADE_start) / (ARROW_FADE_end - ARROW_FADE_start)) < 0 := by
    rw [ARROW_FADE_start, ARROW_FADE_end]
    norm_num
  exact lt_of_le_of_lt (min_le_left _ _) this

/-- C1 (amended): every picking primitive returns a visibility factor that
is at most 1; `pick_circle` returns exactly 1, while the `pick_arrow` and
`pick_plane` factors are not clamped below and may be negative. -/
theorem pick_visibility_at_most_one (config : PreparedGizmoConfig) (ray : Ray)
    (direction : GizmoDirection) (radius : ℝ) (filled : Bool) :
    (pick_arrow config ray direction).visibility ≤ 1 ∧
    (pick_plane config ray direction).visibility ≤ 1 ∧
    (pick_circle config ray radius filled).visibility = 1 := by
  refine ⟨?_, ?_, by simp only [pick_circle]; norm_num⟩
  · simp only [pick_arrow]
    exact min_le_right _ _
  · simp only [pick_plane]
    exact min_le_right _ _

/-- C4 (counterexample): the wrapped incremental angle does not always lie
in `(-pi, pi]`: a naive delta of exactly `-pi` (current angle 0, previous
angle `pi`, magnitude not exceeding `pi`, so no full turn is added) is kept
as `-pi`, which is outside the half-open interval. -/
theorem angle_delta_wrap_boundary_excluded :
    angle_delta_wrap 0 π = -π ∧ angle_delta_wrap 0 π ∉ Set.Ioc (-π) π := by
  have hπ := Real.pi_pos
  have h : angle_delta_wrap 0 π = -π := by
    unfold angle_delta_wrap
    rw [if_neg (by linarith), if_neg (by linarith)]
    ring
  refine ⟨h, ?_⟩
  rw [h]
  intro hmem
  exact lt_irrefl _ hmem.1

/-- C4 (amended): for every pair of consecutive frames whose naive angle
difference lies within `[-3pi, 3pi]` (as holds for screen angles and their
snapped variants), the per-frame incremental angle is wrapped into
`[-pi, pi]` by subtracting or adding one full turn whenever the naive
difference exceeds `pi` in magnitude; a transition across the boundary,
e.g. from 179 degrees to -179 degrees, is accumulated as the short-path
signed step of +2 degrees, not -358 degrees. -/
theorem angle_delta_wrap_short_path :
    (∀ cur last, -(3 * π) ≤ cur - last → cur - last ≤ 3 * π →
      angle_delta_wrap cur last ∈ Set.Icc (-π) π) ∧
    angle_delta_wrap (-(179 / 180 * π)) (179 / 180 * π) = 2 / 180 * π := by
  have hπ := Real.pi_pos
  constructor
  · intro cur last h1 h2
    simp only [angle_delta_wrap]
    split_ifs with ha hb
    · exact ⟨by linarith, by linarith⟩
    · exact ⟨by linarith, by linarith⟩
    · exact ⟨by linarith, by linarith⟩
  · unfold angle_delta_wrap
    rw [if_neg (by nlinarith), if_pos (by nlinarith)]
    ring

/-- C4 (witness): the amended wrap theorem applied at a zero naive
delta. -/
theorem angle_delta_wrap_short_path_witness :
    -(3 * π) ≤ (0 : ℝ) - 0 ∧ (0 : ℝ) - 0 ≤ 3 * π ∧
    angle_delta_wrap 0 0 ∈ Set.Icc (-π) π := by
  have h1 : -(3 * π) ≤ (0 : ℝ) - 0 := by nlinarith [Real.pi_pos]
  have h2 : (0 : ℝ) - 0 ≤ 3 * π := by nlinarith [Real.pi_pos]
  exact ⟨h1, h2, angle_delta_wrap_short_path.1 0 0 h1 h2⟩

/-- C7 (counterexample): for the right-handed orthographic-style projection
`diag(1, 1, -1, 1)`, the claimed derivation (inspect entry (3,3), here 1,
nonzero hence positive) reports left-handed, while `from_config` (which
inspects entry (3,2) = 0 and falls back to entry (2,2) = -1) reports
right-handed. -/
theorem left_handed_claim_mismatch :
    left_handed_claimed sampleConfigOrthoRH.projection_matrix ∧
    ¬ (from_config sampleConfigOrthoRH).left_handed := by
  constructor
  · simp [left_handed_claimed, sampleConfigOrthoRH, sampleConfig, projOrthoRH]
  · simp [PreparedGizmoConfig.from_config, DMat4.ofRowMatrix,
      sampleConfigOrthoRH, sampleConfig, projOrthoRH]

/-- C7 (amended): `from_config` derives `left_handed` by inspecting the
projection's (3,2) entry (0-based row, column; the entry producing clip `w`
from view `z`): if that entry is zero (orthographic-style), `left_handed`
holds exactly when the (2,2) entry is positive; otherwise `left_handed`
holds exactly when the (3,2) entry is positive. -/
theorem left_handed_entries (c : GizmoConfig) :
    (from_config c).left_handed ↔
      (if c.projection_matrix.w.z = 0 then 0 < c.projection_matrix.z.z
       else 0 < c.projection_matrix.w.z) := by
  simp only [PreparedGizmoConfig.from_config, DMat4.ofRowMatrix, gt_iff_lt]

/-- The scale accumulated by the target loop is the sum of the target
scales. -/
theorem target_fold_scale (targets : List TargetSRT) (a : TargetAcc) :
    (targets.foldl target_step a).scale =
      a.scale + sumV (targets.map fun t => t.scale) := by
  induction targets generalizing a with
  | nil => simp [sumV]
  | cons t rest ih =>
    simp only [List.foldl_cons, List.map_cons, sumV, ih, target_step]
    rw [Vec3.add_assoc]

/-- The translation accumulated by the target loop is the sum of the target
translations. -/
theorem target_fold_translation (targets : List TargetSRT) (a : TargetAcc) :
    (targets.foldl target_step a).translation =
      a.translation + sumV (targets.map fun t => t.translation) := by
  induction targets generalizing a with
  | nil => simp [sumV]
  | cons t rest ih =>
    simp only [List.foldl_cons, List.map_cons, sumV, ih, target_step]
    rw [Vec3.add_assoc]

/-- The count accumulated by the target loop is the number of targets. -/
theorem target_fold_count (targets : List TargetSRT) (a : TargetAcc) :
    (targets.foldl target_step a).target_count =
      a.target_count + targets.length := by
  induction targets generalizing a with
  | nil => simp
  | cons t rest ih =>
    simp only [List.foldl_cons, List.length_cons, ih, target_step]
    omega

/-- The rotation accumulated by the target loop over a nonempty target list
is the rotation of the last target. -/
theorem target_fold_rotation (targets : List TargetSRT) (h : targets ≠ [])
    (a : TargetAcc) :
    (targets.foldl target_step a).rotation = (targets.getLast h).rotation := by
  induction targets generalizing a with
  | nil => exact absurd rfl h
  | cons t rest ih =>
    cases rest with
    | nil => simp [target_step]
    | cons t2 rest2 =>
      rw [List.foldl_cons, ih (by simp)]
      congr 1

/-- C3: `update_for_targets` sets the working translation and scale to the
arithmetic means of the targets' decomposed translations and scales, and
the working rotation to the rotation of the last target in iteration order
(not an average); with zero targets, scale is set to `(1,1,1)` and
translation to the zero vector. -/
theorem update_for_targets_mean_and_last_rotation (c : PreparedGizmoConfig)
    (targets : List TargetSRT) :
    (targets = [] →
      (update_for_targets c targets).scale = Vec3.ONE ∧
      (update_for_targets c targets).translation = Vec3.ZERO) ∧
    (∀ h : targets ≠ [],
      (update_for_targets c targets).translation =
        ((targets.length : ℝ))⁻¹ • sumV (targets.map fun t => t.translation) ∧
      (update_for_targets c targets).scale =
        ((targets.length : ℝ))⁻¹ • sumV (targets.map fun t => t.scale) ∧
      (update_for_targets c targets).rotation = (targets.getLast h).rotation) := by
  constructor
  · rintro rfl
    simp [update_for_targets, PreparedGizmoConfig.update_for_targets]
  · intro h
    have hlen : targets.length ≠ 0 := by
      intro hc
      exact h (List.length_eq_zero.mp hc)
    have hcount : (targets.foldl target_step
        ⟨Vec3.ZERO, Vec3.ZERO, Quat.IDENTITY, 0⟩ : TargetAcc).target_count =
        targets.length := by
      rw [target_fold_count]
      simp
    refine ⟨?_, ?_, ?_⟩
    · simp only [update_for_targets, PreparedGizmoConfig.update_for_targets]
      rw [if_neg (by rw [hcount]; exact hlen), hcount,
        target_fold_translation]
      simp
    · simp only [update_for_targets, PreparedGizmoConfig.update_for_targets]
      rw [if_neg (by rw [hcount]; exact hlen), hcount, target_fold_scale]
      simp
    · simp only [update_for_targets, PreparedGizmoConfig.update_for_targets]
      rw [target_fold_rotation targets h]

/-- C3 (witness): the mean/last-rotation theorem applied to a singleton
target list and to the empty target list. -/
theorem update_for_targets_witness :
    ([(⟨⟨2, 4, 6⟩, ⟨0, 0, 0, 1⟩, ⟨1, 2, 3⟩⟩ : TargetSRT)] ≠ []) ∧
    (update_for_targets sampleEyeZ
        [(⟨⟨2, 4, 6⟩, ⟨0, 0, 0, 1⟩, ⟨1, 2, 3⟩⟩ : TargetSRT)]).translation =
      ((([(⟨⟨2, 4, 6⟩, ⟨0, 0, 0, 1⟩, ⟨1, 2, 3⟩⟩ : TargetSRT)].length : ℕ) : ℝ))⁻¹ •
        sumV ([(⟨⟨2, 4, 6⟩, ⟨0, 0, 0, 1⟩, ⟨1, 2, 3⟩⟩ : TargetSRT)].map
          fun t => t.translation) ∧
    (update_for_targets sampleEyeZ ([] : List TargetSRT)).scale = Vec3.ONE := by
  have h : ([(⟨⟨2, 4, 6⟩, ⟨0, 0, 0, 1⟩, ⟨1, 2, 3⟩⟩ : TargetSRT)] : List TargetSRT) ≠ [] := by
    simp
  refine ⟨h, ?_, ?_⟩
  · exact ((update_for_targets_mean_and_last_rotation sampleEyeZ _).2 h).1
  · exact ((update_for_targets_mean_and_last_rotation sampleEyeZ
      ([] : List TargetSRT)).1 rfl).1

/-- The ray used for the concrete plane-picking statements: fired parallel
to the Z axis towards the Z plane patch of the sample configuration,
hitting the patch plane 3/4 units away from the patch origin. -/
def sampleRayC6 : Ray := ⟨⟨23 / 4, 5, -1⟩, ⟨0, 0, 1⟩⟩

/-- The length of a real multiple of a unit vector. -/
theorem vec3_length_smul_unit (k : ℝ) (v : Vec3) (hv : Vec3.dot v v = 1) :
    Vec3.length (k • v) = |k| := by
  have h : Vec3.dot (k • v) (k • v) = k ^ 2 * Vec3.dot v v := by
    simp [Vec3.dot]
    ring
  rw [Vec3.length, h, hv, mul_one, Real.sqrt_sq_eq_abs]

/-- For the axis directions, the plane tangent and bitangent are unit
vectors. -/
theorem plane_dirs_unit (direction : GizmoDirection)
    (h : direction ≠ GizmoDirection.View) :
    Vec3.dot (plane_tangent direction) (plane_tangent direction) = 1 ∧
    Vec3.dot (plane_bitangent direction) (plane_bitangent direction) = 1 := by
  cases direction with
  | X => constructor <;> simp [plane_tangent, plane_bitangent, Vec3.dot,
      Vec3.X, Vec3.Y, Vec3.Z]
  | Y => constructor <;> simp [plane_tangent, plane_bitangent, Vec3.dot,
      Vec3.X, Vec3.Y, Vec3.Z]
  | Z => constructor <;> simp [plane_tangent, plane_bitangent, Vec3.dot,
      Vec3.X, Vec3.Y, Vec3.Z]
  | View => exact absurd rfl h

/-- The second quad corner minus the first is the full tangent-side vector
of the plane patch: `plane_size` times the tangent. -/
theorem draw_plane_side_tangent (config : PreparedGizmoConfig)
    (direction : GizmoDirection) :
    (draw_plane_points config direction).2.1 - (draw_plane_points config direction).1 =
      plane_size config • plane_tangent direction := by
  simp only [draw_plane_points]
  ext <;> simp <;> ring

/-- The third quad corner minus the second is the full bitangent-side
vector of the plane patch: `plane_size` times the bitangent. -/
theorem draw_plane_side_bitangent (config : PreparedGizmoConfig)
    (direction : GizmoDirection) :
    (draw_plane_points config direction).2.2.1 -
        (draw_plane_points config direction).2.1 =
      plane_size config • plane_bitangent direction := by
  simp only [draw_plane_points]
  ext <;> simp <;> ring

/-- C6 (counterexample): picking is not limited to the quadrilateral's
half-size: for the sample configuration and a ray hitting the Z plane
patch's plane 3/4 units from the patch origin (plane size 1, half-size
1/2), `pick_plane` reports picked although the radial distance exceeds the
half-size. -/
theorem pick_plane_picked_beyond_half_size :
    (pick_plane sampleEyeZ sampleRayC6 GizmoDirection.Z).picked ∧
    ¬ ((ray_to_plane_origin (gizmo_normal sampleEyeZ GizmoDirection.Z)
        (plane_global_origin sampleEyeZ GizmoDirection.Z)
        sampleRayC6.origin sampleRayC6.direction).2 ≤ plane_size sampleEyeZ / 2) := by
  have hnormal : gizmo_normal sampleEyeZ GizmoDirection.Z = ⟨0, 0, 1⟩ := by
    simp [gizmo_normal, gizmo_local_normal, sampleEyeZ, sampleConfig,
      PreparedGizmoConfig.local_space, GizmoConfig.local_space, Vec3.Z]
  have horigin : plane_global_origin sampleEyeZ GizmoDirection.Z = ⟨5, 5, 0⟩ := by
    simp only [plane_global_origin, plane_local_origin, plane_bitangent,
      plane_tangent, sampleEyeZ, sampleConfig, PreparedGizmoConfig.local_space,
      GizmoConfig.local_space]
    norm_num
    ext <;> simp [Vec3.X, Vec3.Y, Vec3.ZERO]
  have hdist : (ray_to_plane_origin (⟨0, 0, 1⟩ : Vec3) (⟨5, 5, 0⟩ : Vec3)
      sampleRayC6.origin sampleRayC6.direction).2 = 3 / 4 := by
    simp only [ray_to_plane_origin, sampleRayC6, Vec3.dot, Vec3.length]
    norm_num
    rw [show (9 : ℝ) = 3 ^ 2 by norm_num, show (16 : ℝ) = 4 ^ 2 by norm_num,
      Real.sqrt_sq (by norm_num : (0 : ℝ) ≤ 3),
      Real.sqrt_sq (by norm_num : (0 : ℝ) ≤ 4)]
  have hps : plane_size sampleEyeZ = 1 := by
    simp [plane_size, sampleEyeZ, sampleConfig]
    norm_num
  have hdot : |Vec3.dot sampleEyeZ.eye_to_model_dir (⟨0, 0, 1⟩ : Vec3)| = 1 := by
    simp [sampleEyeZ, Vec3.dot, Vec3.Z]
  constructor
  · simp only [pick_plane, hnormal, horigin, hdist, hdot, hps,
      PLANE_FADE_start, PLANE_FADE_end]
    norm_num
  · rw [hnormal, horigin, hdist, hps]
    norm_num

/-- C6 (amended): for every prepared configuration, positive-visibility
direction and pointer ray, `pick_plane` reports picked exactly when the
radial distance from the plane patch's local origin to the ray-plane
intersection is within `plane_size`, which is the full side length of the
quadrilateral that `draw_plane` emits for the same configuration and
direction (twice the patch's half-size). -/
theorem pick_plane_picked_iff_within_plane_size (config : PreparedGizmoConfig)
    (ray : Ray) (direction : GizmoDirection)
    (hvis : 0 < (pick_plane config ray direction).visibility) :
    ((pick_plane config ray direction).picked ↔
      (ray_to_plane_origin (gizmo_normal config direction)
        (plane_global_origin config direction) ray.origin ray.direction).2 ≤
        plane_size config) ∧
    (direction ≠ GizmoDirection.View →
      Vec3.length ((draw_plane_points config direction).2.1 -
        (draw_plane_points config direction).1) = |plane_size config| ∧
      Vec3.length ((draw_plane_points config direction).2.2.1 -
        (draw_plane_points config direction).2.1) = |plane_size config|) := by
  constructor
  · simp only [pick_plane] at hvis ⊢
    constructor
    · rintro ⟨-, h2⟩
      exact h2
    · intro h2
      exact ⟨hvis, h2⟩
  · intro hdir
    rw [draw_plane_side_tangent, draw_plane_side_bitangent,
      vec3_length_smul_unit _ _ (plane_dirs_unit direction hdir).1,
      vec3_length_smul_unit _ _ (plane_dirs_unit direction hdir).2]
    exact ⟨rfl, rfl⟩

/-- C6 (witness): the amended equivalence applied to the sample
configuration with positive visibility on the Z plane patch. -/
theorem pick_plane_picked_iff_witness :
    0 < (pick_plane sampleEyeZ sampleRayC6 GizmoDirection.Z).visibility ∧
    ((pick_plane sampleEyeZ sampleRayC6 GizmoDirection.Z).picked ↔
      (ray_to_plane_origin (gizmo_normal sampleEyeZ GizmoDirection.Z)
        (plane_global_origin sampleEyeZ GizmoDirection.Z)
        sampleRayC6.origin sampleRayC6.direction).2 ≤ plane_size sampleEyeZ) := by
  have hdot : |Vec3.dot sampleEyeZ.eye_to_model_dir
      (gizmo_normal sampleEyeZ GizmoDirection.Z)| = 1 := by
    simp [gizmo_normal, gizmo_local_normal, sampleEyeZ, sampleConfig,
      PreparedGizmoConfig.local_space, GizmoConfig.local_space, Vec3.dot, Vec3.Z]
  have hvis : 0 < (pick_plane sampleEyeZ sampleRayC6 GizmoDirection.Z).visibility := by
    simp only [pick_plane, hdot, PLANE_FADE_start, PLANE_FADE_end]
    norm_num
  exact ⟨hvis,
    (pick_plane_picked_iff_within_plane_size sampleEyeZ sampleRayC6
      GizmoDirection.Z hvis).1⟩

/-- C10: `ScaleSubGizmo::pick` overwrites the persistent drag state
(start scale and start screen distance) and the handle opacity whenever the
pointer position and the gizmo's screen projection are available,
regardless of whether the pick succeeds; when the screen distance is
unavailable the state and opacity are left unchanged and no ray parameter
is returned. -/
theorem scale_pick_state_overwrite (subgizmo : SubGizmoConfig)
    (state : ScaleState) (cursor_pos : Option Vec2) (ray : Ray) :
    (distance_from_origin_2d subgizmo cursor_pos = none →
      scale_pick subgizmo state cursor_pos ray = (subgizmo.opacity, state, none)) ∧
    (∀ d, distance_from_origin_2d subgizmo cursor_pos = some d →
      (scale_pick subgizmo state cursor_pos ray).1 =
        (scale_pick_result subgizmo ray).visibility ∧
      (scale_pick subgizmo state cursor_pos ray).2.1 =
        ⟨EFVec3.finVec subgizmo.config.scale, EF.fin d⟩) := by
  constructor
  · intro h
    simp only [scale_pick, h]
  · intro d h
    simp [scale_pick, h]

/-- C10 (witness): the overwrite theorem applied with an unavailable
pointer (state unchanged) and with the pointer at the gizmo's projected
origin (state overwritten with a zero start distance). -/
theorem scale_pick_state_overwrite_witness :
    distance_from_origin_2d sampleAxisX none = none ∧
    scale_pick sampleAxisX ⟨EFVec3.finVec Vec3.ONE, EF.fin 1⟩ none
        ⟨Vec3.ZERO, Vec3.Z⟩ =
      (sampleAxisX.opacity, ⟨EFVec3.finVec Vec3.ONE, EF.fin 1⟩, none) ∧
    distance_from_origin_2d sampleAxisX (some ⟨1, 1⟩) = some 0 ∧
    (scale_pick sampleAxisX ⟨EFVec3.finVec Vec3.ONE, EF.fin 1⟩ (some ⟨1, 1⟩)
        ⟨Vec3.ZERO, Vec3.Z⟩).2.1 =
      ⟨EFVec3.finVec sampleAxisX.config.scale, EF.fin 0⟩ := by
  have h1 : distance_from_origin_2d sampleAxisX none = none := rfl
  have hscreen : world_to_screen sampleAxisX.config.config.viewport
      sampleAxisX.config.mvp Vec3.ZERO = some ⟨1, 1⟩ := by
    simp only [world_to_screen, sampleAxisX, sampleEyeZ, sampleConfig,
      DMat4.IDENTITY, DMat4.mulVec4, Vec3.ZERO, Rect.width, Rect.height]
    norm_num
  have h2 : distance_from_origin_2d sampleAxisX (some ⟨1, 1⟩) = some 0 := by
    simp only [distance_from_origin_2d, hscreen, Vec2.dist]
    norm_num
  exact ⟨h1,
    (scale_pick_state_overwrite sampleAxisX ⟨EFVec3.finVec Vec3.ONE, EF.fin 1⟩
      none ⟨Vec3.ZERO, Vec3.Z⟩).1 h1,
    h2,
    ((scale_pick_state_overwrite sampleAxisX ⟨EFVec3.finVec Vec3.ONE, EF.fin 1⟩
      (some ⟨1, 1⟩) ⟨Vec3.ZERO, Vec3.Z⟩).2 0 h2).2⟩

/-- The arc angle value lies between a semicircle and a full circle. -/
theorem arc_angle_bounds_aux (x : ℝ) (hx : 0 ≤ x) :
    π / 2 ≤ min 1 x * (π / 2) + π / 2 ∧ min 1 x * (π / 2) + π / 2 ≤ π := by
  have hπ := Real.pi_pos
  have hf0 : 0 ≤ min 1 x := le_min zero_le_one hx
  have hf1 : min 1 x ≤ 1 := min_le_left 1 x
  constructor
  · nlinarith
  · nlinarith

/-- C9: `RotationSubGizmo::pick` succeeds exactly when, in addition to the
ring-distance test (distance from the arc radius at most the focus
distance), the absolute initial axis angle is strictly below the current
arc angle; and the arc angle always lies between a semicircle (pi/2
half-extent) and a full circle (pi half-extent), so the pickable region is
restricted to the visible arc. -/
theorem rotation_pick_requires_arc_angle (subgizmo : SubGizmoConfig)
    (state : RotationState) (cursor_pos : Option Vec2) (ray : Ray) :
    ((rotation_pick subgizmo state cursor_pos ray).2.isSome ↔
      (|(rotation_pick_t_dist subgizmo ray).2 - arc_radius subgizmo| ≤
        subgizmo.config.focus_distance ∧
       |rotation_pick_angle subgizmo ray| < arc_angle subgizmo)) ∧
    (π / 2 ≤ arc_angle subgizmo ∧ arc_angle subgizmo ≤ π) := by
  constructor
  · simp only [rotation_pick]
    split_ifs with h
    · simp [h]
    · simp [h]
  · simp only [arc_angle]
    split_ifs with h
    · constructor
      · linarith [Real.pi_pos]
      · exact le_refl π
    · exact arc_angle_bounds_aux _
        (div_nonneg (le_max_left 0 _) (by norm_num))

/-- The sample gizmo projects to the viewport center. -/
theorem sample_world_to_screen :
    world_to_screen sampleAxisX.config.config.viewport sampleAxisX.config.mvp
      Vec3.ZERO = some ⟨1, 1⟩ := by
  simp only [world_to_screen, sampleAxisX, sampleEyeZ, sampleConfig,
    DMat4.IDENTITY, DMat4.mulVec4, Vec3.ZERO, Rect.width, Rect.height]
  norm_num

/-- The screen distance for the sample configuration is the distance to the
viewport center. -/
theorem sample_distance (c : Vec2) :
    distance_from_origin_2d sampleAxisX (some c) = some (Vec2.dist c ⟨1, 1⟩) := by
  simp only [distance_from_origin_2d, sample_world_to_screen]

/-- C2: `ScaleSubGizmo::update` propagates NaN: with a recorded start
screen distance of zero (which a successful pick at the gizmo's projected
origin produces) and the pointer half a unit away, the division
`delta /= start_delta` yields infinity, the clamp keeps it, and the zero
components of the axis direction multiply it into NaN, so the returned
scale is NaN on the two untouched axes (and infinite on the dragged
axis). -/
theorem scale_update_nan_propagation :
    ∃ r, scale_update sampleAxisX ⟨EFVec3.finVec Vec3.ONE, EF.fin 0⟩
        (some ⟨3 / 2, 1⟩) = some r ∧
      r.scale.x = EF.pinf ∧ r.scale.y = EF.nan ∧ r.scale.z = EF.nan := by
  have h4 : Real.sqrt 4 = 2 := by
    rw [show (4 : ℝ) = 2 ^ 2 by norm_num,
      Real.sqrt_sq (by norm_num : (0 : ℝ) ≤ 2)]
  have hd : Vec2.dist ⟨3 / 2, 1⟩ ⟨1, 1⟩ = 1 / 2 := by
    simp only [Vec2.dist]
    norm_num
    rw [h4]
    norm_num
  have hD : distance_from_origin_2d sampleAxisX (some ⟨3 / 2, 1⟩) = some (1 / 2) := by
    rw [sample_distance, hd]
  refine ⟨{ scale := ⟨EF.pinf, EF.nan, EF.nan⟩,
            rotation := sampleAxisX.config.rotation,
            translation := sampleAxisX.config.translation,
            mode := GizmoMode.Scale,
            value := ⟨EF.pinf, EF.nan, EF.nan⟩ }, ?_, rfl, rfl, rfl⟩
  have hkind : (TransformKind.Axis = TransformKind.Plane) = False :=
    eq_false (by decide)
  have hsnap : sampleAxisX.config.config.snapping = false := rfl
  have hkind2 : sampleAxisX.transform_kind = TransformKind.Axis := rfl
  have hdir2 : sampleAxisX.direction = GizmoDirection.X := rfl
  simp only [scale_update, hD, hsnap, hkind2, hdir2, hkind,
    Bool.false_eq_true, if_false, gizmo_local_normal, Vec3.X, Vec3.ONE,
    EFVec3.finVec, EFVec3.ONE, EFVec3.smulE, EFVec3.add, EFVec3.mulV]
  norm_num [EF.div, EF.maxEF, EF.sub, EF.neg, EF.add, EF.mul]

/-- Positivity of one scale component after the ratio clamp: the start
scale is positive, the direction component lies in `[0, 1]`, and the
clamped ratio is at least `1e-4`. -/
theorem comp_pos (s c v : ℝ) (hs : 0 < s) (hc0 : 0 ≤ c) (hc1 : c ≤ 1) :
    0 < s * (1 + c * (max v (1e-4 : ℝ) + -1)) := by
  have hm : (1e-4 : ℝ) ≤ max v (1e-4 : ℝ) := le_max_right _ _
  have h1 : 0 ≤ c * (max v (1e-4 : ℝ) - 1e-4) :=
    mul_nonneg hc0 (by linarith)
  have h2 : 1 * ((1e-4 : ℝ) - 1) ≤ c * ((1e-4 : ℝ) - 1) :=
    mul_le_mul_of_nonpos_right hc1 (by norm_num)
  have hX : 0 < 1 + c * (max v (1e-4 : ℝ) + -1) := by nlinarith
  exact mul_pos hs hX

/-- Components of the normalized sum of the plane bitangent and tangent lie
in `[0, 1]` for the axis directions. -/
theorem plane_scale_dir_bounds (direction : GizmoDirection)
    (h : direction ≠ GizmoDirection.View) :
    (0 ≤ (Vec3.normalize (plane_bitangent direction + plane_tangent direction)).x ∧
      (Vec3.normalize (plane_bitangent direction + plane_tangent direction)).x ≤ 1) ∧
    (0 ≤ (Vec3.normalize (plane_bitangent direction + plane_tangent direction)).y ∧
      (Vec3.normalize (plane_bitangent direction + plane_tangent direction)).y ≤ 1) ∧
    (0 ≤ (Vec3.normalize (plane_bitangent direction + plane_tangent direction)).z ∧
      (Vec3.normalize (plane_bitangent direction + plane_tangent direction)).z ≤ 1) := by
  have hs1 : (1 : ℝ) ≤ Real.sqrt 2 := by
    rw [show (1 : ℝ) = Real.sqrt 1 by simp]
    exact Real.sqrt_le_sqrt (by norm_num)
  have hs0 : (0 : ℝ) ≤ (Real.sqrt 2)⁻¹ := inv_nonneg.mpr (Real.sqrt_nonneg 2)
  have hsle : (Real.sqrt 2)⁻¹ ≤ 1 := inv_le_one_of_one_le₀ hs1
  cases direction with
  | X =>
    simp only [plane_bitangent, plane_tangent, Vec3.normalize, Vec3.length,
      Vec3.dot, Vec3.X, Vec3.Y, Vec3.Z]
    norm_num
    exact hsle
  | Y =>
    simp only [plane_bitangent, plane_tangent, Vec3.normalize, Vec3.length,
      Vec3.dot, Vec3.X, Vec3.Y, Vec3.Z]
    norm_num
    exact hsle
  | Z =>
    simp only [plane_bitangent, plane_tangent, Vec3.normalize, Vec3.length,
      Vec3.dot, Vec3.X, Vec3.Y, Vec3.Z]
    norm_num
    exact hsle
  | View => exact absurd rfl h

/-- Components of the direction vector used by the scale update lie in
`[0, 1]` for the axis directions. -/
theorem scale_dir_bounds (subgizmo : SubGizmoConfig)
    (hdir : subgizmo.direction ≠ GizmoDirection.View) :
    (0 ≤ (if subgizmo.transform_kind = TransformKind.Plane then
        Vec3.normalize (plane_bitangent subgizmo.direction +
          plane_tangent subgizmo.direction)
      else gizmo_local_normal subgizmo.config subgizmo.direction).x ∧
      (if subgizmo.transform_kind = TransformKind.Plane then
        Vec3.normalize (plane_bitangent subgizmo.direction +
          plane_tangent subgizmo.direction)
      else gizmo_local_normal subgizmo.config subgizmo.direction).x ≤ 1) ∧
    (0 ≤ (if subgizmo.transform_kind = TransformKind.Plane then
        Vec3.normalize (plane_bitangent subgizmo.direction +
          plane_tangent subgizmo.direction)
      else gizmo_local_normal subgizmo.config subgizmo.direction).y ∧
      (if subgizmo.transform_kind = TransformKind.Plane then
        Vec3.normalize (plane_bitangent subgizmo.direction +
          plane_tangent subgizmo.direction)
      else gizmo_local_normal subgizmo.config subgizmo.direction).y ≤ 1) ∧
    (0 ≤ (if subgizmo.transform_kind = TransformKind.Plane then
        Vec3.normalize (plane_bitangent subgizmo.direction +
          plane_tangent subgizmo.direction)
      else gizmo_local_normal subgizmo.config subgizmo.direction).z ∧
      (if subgizmo.transform_kind = TransformKind.Plane then
        Vec3.normalize (plane_bitangent subgizmo.direction +
          plane_tangent subgizmo.direction)
      else gizmo_local_normal subgizmo.config subgizmo.direction).z ≤ 1) := by
  by_cases hk : subgizmo.transform_kind = TransformKind.Plane
  · simp only [if_pos hk]
    exact plane_scale_dir_bounds subgizmo.direction hdir
  · simp only [if_neg hk]
    cases hdc : subgizmo.direction with
    | X => simp [gizmo_local_normal, Vec3.X]
    | Y => simp [gizmo_local_normal, Vec3.Y]
    | Z => simp [gizmo_local_normal, Vec3.Z]
    | View => exact absurd hdc hdir

/-- C5: for every scale drag with a finite nonzero recorded start screen
distance and an X/Y/Z handle, whatever the raw screen-distance ratio
(including near zero or negative), the `1e-4` clamp guarantees that a
returned `GizmoResult` has a strictly positive (finite) scale on every
axis whenever the recorded start scale is strictly positive on every
axis. -/
theorem scale_update_positive_scale (subgizmo : SubGizmoConfig)
    (state : ScaleState) (cursor_pos : Option Vec2) (s1 s2 s3 d0 : ℝ)
    (hscale : state.start_scale = EFVec3.finVec ⟨s1, s2, s3⟩)
    (hs1 : 0 < s1) (hs2 : 0 < s2) (hs3 : 0 < s3)
    (hdelta : state.start_delta = EF.fin d0) (hd0 : d0 ≠ 0)
    (hdir : subgizmo.direction ≠ GizmoDirection.View) :
    ∀ r, scale_update subgizmo state cursor_pos = some r →
      EF.pos r.scale.x ∧ EF.pos r.scale.y ∧ EF.pos r.scale.z := by
  intro r hr
  cases hD : distance_from_origin_2d subgizmo cursor_pos with
  | none =>
    rw [scale_update, hD] at hr
    exact Option.noConfusion hr
  | some dist =>
    obtain ⟨v1, hv1⟩ : ∃ v1 : ℝ,
        (if subgizmo.config.config.snapping then
          EF.roundToInterval (EF.div (EF.fin dist) state.start_delta)
            subgizmo.config.config.snap_scale
        else EF.div (EF.fin dist) state.start_delta) = EF.fin v1 := by
      rw [hdelta]
      cases subgizmo.config.config.snapping
      · exact ⟨dist / d0, by simp [EF.div, hd0]⟩
      · exact ⟨round_to_interval (dist / d0) subgizmo.config.config.snap_scale,
          by simp [EF.div, EF.roundToInterval, hd0]⟩
    simp only [scale_update, hD, hv1, hscale, EF.sub, EF.maxEF, EF.neg, EF.add,
      EF.mul, EFVec3.ONE, EFVec3.finVec, EFVec3.add, EFVec3.smulE, EFVec3.mulV,
      Vec3.ONE, Option.some.injEq] at hr
    subst hr
    have hb := scale_dir_bounds subgizmo hdir
    exact ⟨comp_pos _ _ _ hs1 hb.1.1 hb.1.2,
           comp_pos _ _ _ hs2 hb.2.1.1 hb.2.1.2,
           comp_pos _ _ _ hs3 hb.2.2.1 hb.2.2.2⟩

/-- C5 (witness): the positivity theorem applied to the sample X-axis
handle with unit start scale, start distance 2 and the pointer at the
gizmo origin (raw ratio 0, clamped to 1e-4). -/
theorem scale_update_positive_scale_witness :
    (0 : ℝ) < 1 ∧ (2 : ℝ) ≠ 0 ∧
    sampleAxisX.direction ≠ GizmoDirection.View ∧
    ∃ r, scale_update sampleAxisX ⟨EFVec3.finVec ⟨1, 1, 1⟩, EF.fin 2⟩
        (some ⟨1, 1⟩) = some r ∧
      (EF.pos r.scale.x ∧ EF.pos r.scale.y ∧ EF.pos r.scale.z) := by
  have hzero : Vec2.dist ⟨1, 1⟩ ⟨1, 1⟩ = 0 := by
    simp [Vec2.dist]
  have hD : distance_from_origin_2d sampleAxisX (some ⟨1, 1⟩) = some 0 := by
    rw [sample_distance, hzero]
  obtain ⟨r, hr⟩ : ∃ r, scale_update sampleAxisX
      ⟨EFVec3.finVec ⟨1, 1, 1⟩, EF.fin 2⟩ (some ⟨1, 1⟩) = some r := by
    simp only [scale_update, hD]
    exact ⟨_, rfl⟩
  exact ⟨by norm_num, by norm_num, by simp [sampleAxisX], r, hr,
    scale_update_positive_scale sampleAxisX
      ⟨EFVec3.finVec ⟨1, 1, 1⟩, EF.fin 2⟩ (some ⟨1, 1⟩) 1 1 1 2 rfl
      (by norm_num) (by norm_num) (by norm_num) rfl (by norm_num)
      (by simp [sampleAxisX]) r hr⟩

end Gizmo
